import Mathlib

/-!
# Verification of the seventech browser-automation core

Shallow embedding, in Lean 4, of the trace-to-plan compiler (`Planner`,
`src/seventech/planner/service.py`), the deterministic replay engine
(`Executor`, `src/seventech/executor/service.py`) and the interactive
session state machine (`src/seventech/mapper/session.py`,
`src/seventech/api/session_manager.py`), together with theorems settling
the frozen claims about them.

Modelling conventions:
* Python dicts with dynamic string keys (step parameters, user parameters)
  are association lists in insertion order; `dict.get` is first-match
  lookup.
* Python `None` / key absence is `Option.none`; Python truthiness of
  strings (`''` falsy), booleans and option values is made explicit by
  helper functions.
* Browser effects (starting/stopping the browser, dispatching an action,
  taking a screenshot) are oracles passed as function arguments; an
  invocation log of events is returned alongside results so that
  "invoked exactly once"-style properties are statable.
* Python regular expressions are embedded by a small executable matcher
  over `List Char` (ASCII character classes; the repository only ever
  matches ASCII patterns).
* Timing (`asyncio.sleep`, timestamps, uuid generation) is abstracted:
  pauses are recorded as events, timestamps/uuids are caller-supplied.
-/

set_option maxRecDepth 10000

namespace Seventech

/-- Decidable equality for `Except`, so concrete runs can be settled by
`decide`. -/
instance {ε α : Type} [DecidableEq ε] [DecidableEq α] :
    DecidableEq (Except ε α) := fun x y =>
  match x, y with
  | .ok a, .ok b =>
    if h : a = b then .isTrue (by rw [h])
    else .isFalse (by intro hc; cases hc; exact h rfl)
  | .error a, .error b =>
    if h : a = b then .isTrue (by rw [h])
    else .isFalse (by intro hc; cases hc; exact h rfl)
  | .ok _, .error _ => .isFalse (by intro hc; cases hc)
  | .error _, .ok _ => .isFalse (by intro hc; cases hc)

/-! ## Dynamic values and parameter dictionaries -/

/-- A dynamically-typed Python value as it occurs in step-parameter and
user-parameter dicts: strings, ints and bools are the only value shapes the
planner ever writes and the executor ever reads. -/
inductive PVal where
  | str (s : String)
  | int (n : Int)
  | bool (b : Bool)
deriving DecidableEq, Repr

/-- A Python `dict[str, Any]` in insertion order. -/
abbrev PParams := List (String × PVal)

/-- `d.get(k)`: first binding wins, like a Python dict (keys are unique in
practice; association-list lookup keeps the first). -/
def pGet (d : PParams) (k : String) : Option PVal :=
  List.lookup k d

/-- Python truthiness of a value fetched from a dict (`if d.get(k):`):
absent and `None` are falsy, `''` is falsy, `0` is falsy, `False` is falsy. -/
def pTruthy : Option PVal → Bool
  | none => false
  | some (.str s) => s ≠ ""
  | some (.int n) => n ≠ 0
  | some (.bool b) => b

/-- `d.get(k, '')` read as a string (the planner only stores strings under
the keys it later reads as strings). -/
def pGetStr (d : PParams) (k : String) : String :=
  match pGet d k with
  | some (.str s) => s
  | _ => ""

/-- `d.get(k, 0)` read as an int. -/
def pGetInt (d : PParams) (k : String) : Int :=
  match pGet d k with
  | some (.int n) => n
  | _ => 0

/-- Python `str()` of a dynamic value (`str(True) = 'True'`). -/
def pvalStr : PVal → String
  | .str s => s
  | .int n => toString n
  | .bool b => if b then "True" else "False"

/-- Python `str(x)` of an optional string, as in an f-string:
`f'{None}'` renders as `'None'`. -/
def pyStr : Option String → String
  | some s => s
  | none => "None"

/-- Truthiness of an optional string (`if d.get(k):` where the value is a
string or `None`). -/
def optTruthy (o : Option String) : Bool :=
  match o with
  | some s => s ≠ ""
  | none => false

/-! ## Character-level string utilities

The executor and planner manipulate step text with Python regexes; we work
over `List Char` with fuel-based recursion so that every definition
kernel-evaluates on concrete inputs. -/

/-- Python's `\w` character class, ASCII fragment: `[A-Za-z0-9_]`. -/
def isWordChar (c : Char) : Bool :=
  c.isAlphanum || c = '_'

/-- `p.startsWith s`: is `p` a leading segment of `s`? -/
def startsWith : List Char → List Char → Bool
  | [], _ => true
  | _ :: _, [] => false
  | p :: ps, c :: cs => p = c && startsWith ps cs

/-- Python `pat in s` (substring containment). -/
def containsSub (pat : List Char) : List Char → Bool
  | [] => startsWith pat []
  | c :: cs => startsWith pat (c :: cs) || containsSub pat cs

/-- Attempt to read one `{param:NAME}` placeholder at the head of the
input, per the regex `\{param:(\w+)\}`: the literal `{param:`, a nonempty
run of word characters, then `}`.  Returns the name and the rest. -/
def readPlaceholder : List Char → Option (List Char × List Char)
  | '{' :: 'p' :: 'a' :: 'r' :: 'a' :: 'm' :: ':' :: rest =>
    let name := rest.takeWhile isWordChar
    let rest' := rest.dropWhile isWordChar
    match name, rest' with
    | [], _ => none
    | _ :: _, '}' :: rest'' => some (name, rest'')
    | _, _ => none
  | _ => none

/-- One scan token: a literal character, or a matched placeholder. -/
inductive Tok where
  | lit (c : Char)
  | ph (name : List Char)
deriving DecidableEq, Repr

/-- Left-to-right, non-overlapping scan for `\{param:(\w+)\}` matches, the
discipline of Python's `re` module; fueled so it reduces in the kernel
(each step consumes at least one character, so `fuel = length` is enough). -/
def tokensOfFuel : Nat → List Char → List Tok
  | 0, _ => []
  | _, [] => []
  | f + 1, c :: cs =>
    match readPlaceholder (c :: cs) with
    | some (name, rest) => .ph name :: tokensOfFuel f rest
    | none => .lit c :: tokensOfFuel f cs

def tokensOf (s : List Char) : List Tok :=
  tokensOfFuel s.length s

/-- `re.findall(r'\{param:(\w+)\}', s)`: group 1 of every match, in order. -/
def findPlaceholders (s : List Char) : List String :=
  (tokensOf s).filterMap fun t =>
    match t with
    | .ph n => some (String.mk n)
    | .lit _ => none

/-- The literal text of the placeholder for `name`: `{param:NAME}`. -/
def placeholderText (name : String) : String :=
  "\x7bparam:" ++ name ++ "\x7d"

/-- Python `s.replace(old, new)`: replace every non-overlapping occurrence
of `old`, left to right.  Fueled (`fuel = length s` suffices since `old`
is nonempty wherever the executor calls this). -/
def replaceFuel (pat repl : List Char) : Nat → List Char → List Char
  | 0, s => s
  | _, [] => []
  | f + 1, c :: cs =>
    if pat ≠ [] ∧ startsWith pat (c :: cs) then
      repl ++ replaceFuel pat repl f ((c :: cs).drop pat.length)
    else
      c :: replaceFuel pat repl f cs

def replaceAll (pat repl s : List Char) : List Char :=
  replaceFuel pat repl s.length s

/-! ## A small regex matcher

`Planner._should_parameterize` decides parameterization with four Python
regexes.  We embed them with an executable existence matcher: `rxMatch`
returns every way a pattern can consume a head segment of the input
(tracking the previous character for `\b`), and `pySearch` is Python's
`re.search` truthiness (does the pattern match starting anywhere?). -/

inductive Rx where
  /-- a single-character class, e.g. `\d` or `[-.]` -/
  | cls (p : Char → Bool)
  | seq (a b : Rx)
  /-- greedy `a?` (greediness is irrelevant for match existence) -/
  | opt (a : Rx)
  /-- `a{n}` -/
  | repExact (n : Nat) (a : Rx)
  /-- `a{n,}` (so `a+` is `atLeast 1 a`) -/
  | atLeast (n : Nat) (a : Rx)
  /-- `\b` word boundary -/
  | wb

/-- Is there a word/non-word boundary between the previous character and
the head of the remaining input? (`\b` at either end of the string counts
when the adjacent character is a word character.) -/
def atBoundary (prev : Option Char) (s : List Char) : Bool :=
  let w : Option Char → Bool := fun o =>
    match o with
    | some c => isWordChar c
    | none => false
  w prev != w s.head?

/-- Match a sub-matcher exactly `n` times in sequence. -/
def matchTimes (m : Option Char → List Char → List (Option Char × List Char)) :
    Nat → Option Char → List Char → List (Option Char × List Char)
  | 0, prev, s => [(prev, s)]
  | n + 1, prev, s => (m prev s).flatMap fun pr => matchTimes m n pr.1 pr.2

/-- Match a sub-matcher zero or more times; fuel bounds the number of
iterations and each iteration must consume input (every starred body in
the embedded patterns consumes at least one character). -/
def matchStar (m : Option Char → List Char → List (Option Char × List Char)) :
    Nat → Option Char → List Char → List (Option Char × List Char)
  | 0, prev, s => [(prev, s)]
  | f + 1, prev, s =>
    (prev, s) :: (m prev s).flatMap fun pr =>
      if pr.2.length < s.length then matchStar m f pr.1 pr.2 else []

/-- All end states of matching `r` at the head of `s` (previous character
`prev` for word boundaries). -/
def rxMatch : Rx → Option Char → List Char → List (Option Char × List Char)
  | .cls _, _, [] => []
  | .cls p, _, c :: cs => if p c then [(some c, cs)] else []
  | .seq a b, prev, s => (rxMatch a prev s).flatMap fun pr => rxMatch b pr.1 pr.2
  | .opt a, prev, s => rxMatch a prev s ++ [(prev, s)]
  | .repExact n a, prev, s => matchTimes (rxMatch a) n prev s
  | .atLeast n a, prev, s =>
    (matchTimes (rxMatch a) n prev s).flatMap fun pr =>
      matchStar (rxMatch a) pr.2.length pr.1 pr.2
  | .wb, prev, s => if atBoundary prev s then [(prev, s)] else []

/-- Does `r` match starting at some position of the input?  This is the
truthiness of Python's `re.search(r, s)`. -/
def rxSearchFrom (r : Rx) : Option Char → List Char → Bool
  | prev, s =>
    !(rxMatch r prev s).isEmpty ||
      match s with
      | [] => false
      | c :: cs => rxSearchFrom r (some c) cs

def pySearch (r : Rx) (s : String) : Bool :=
  rxSearchFrom r none s.data

/-- Convenience: sequence a list of regexes. -/
def rxAll (l : List Rx) : Rx :=
  match l with
  | [] => .repExact 0 .wb
  | [r] => r
  | r :: rest => .seq r (rxAll rest)

def rxDigit : Rx := .cls Char.isDigit

/-- `\b\d{3}[-.]?\d{3}[-.]?\d{4}\b` (phone numbers). -/
def rxPhone : Rx :=
  rxAll [.wb, .repExact 3 rxDigit, .opt (.cls fun c => c = '-' || c = '.'),
    .repExact 3 rxDigit, .opt (.cls fun c => c = '-' || c = '.'),
    .repExact 4 rxDigit, .wb]

/-- `\b[A-Za-z0-9._%+-]+@[A-Za-z0-9.-]+\.[A-Z|a-z]{2,}\b` (emails; note
the source class `[A-Z|a-z]` literally includes `'|'`). -/
def rxEmail : Rx :=
  rxAll [.wb,
    .atLeast 1 (.cls fun c =>
      c.isAlphanum || c = '.' || c = '_' || c = '%' || c = '+' || c = '-'),
    .cls (fun c => c = '@'),
    .atLeast 1 (.cls fun c => c.isAlphanum || c = '.' || c = '-'),
    .cls (fun c => c = '.'),
    .atLeast 2 (.cls fun c => c.isAlpha || c = '|'),
    .wb]

/-- `\b\d{3}\.?\d{3}\.?\d{3}-?\d{2}\b` (CPF, the Brazilian tax id). -/
def rxCpf : Rx :=
  rxAll [.wb, .repExact 3 rxDigit, .opt (.cls fun c => c = '.'),
    .repExact 3 rxDigit, .opt (.cls fun c => c = '.'),
    .repExact 3 rxDigit, .opt (.cls fun c => c = '-'),
    .repExact 2 rxDigit, .wb]

/-- `\b\d{5}-?\d{3}\b` (CEP, the Brazilian postal code). -/
def rxCep : Rx :=
  rxAll [.wb, .repExact 5 rxDigit, .opt (.cls fun c => c = '-'),
    .repExact 3 rxDigit, .wb]

/-- `Planner._should_parameterize`: does the text contain a PII-shaped
substring (phone, email, CPF, CEP)? -/
def shouldParameterize (text : String) : Bool :=
  pySearch rxPhone text || pySearch rxEmail text ||
    pySearch rxCpf text || pySearch rxCep text

/-! ## Planner data model (`seventech/shared_views.py`, agent history) -/

/-- `ActionType` from `shared_views.py`. -/
inductive ActionType where
  | goto | click | input | select | scroll | wait | extract | screenshot
  | download | upload
deriving DecidableEq, Repr

/-- The `.value` string of an `ActionType` member. -/
def ActionType.value : ActionType → String
  | .goto => "goto"
  | .click => "click"
  | .input => "input"
  | .select => "select"
  | .scroll => "scroll"
  | .wait => "wait"
  | .extract => "extract"
  | .screenshot => "screenshot"
  | .download => "download"
  | .upload => "upload"

/-- The parameter dict of one recorded browser-use action
(`action[action_name]` in the serialized history).  Only the keys the
planner reads are modelled; `none` is key-absence (or `None`). -/
structure AParams where
  url : Option String := none
  index : Option Int := none
  text : Option String := none
  xpath : Option String := none
  value : Option String := none
  direction : Option String := none
  amount : Option Int := none
  duration : Option Int := none
  query : Option String := none
  full_page : Option Bool := none
deriving DecidableEq, Repr, Inhabited

/-- One recorded action: the dict `{"action_name": {params}}`, in key
insertion order (well-formed histories have exactly one key). -/
abbrev Action := List (String × AParams)

/-- `model_output` of one history item (only its `action` list is read). -/
structure ModelOutput where
  action : List Action := []
deriving DecidableEq, Repr

/-- One entry of a per-step `selector_map` snapshot (a DOM node-info dict).
`none` models key absence / `None`; `attributes` is `none` also when the
value is not a dict (the source checks `isinstance(..., dict)`). -/
structure NodeInfo where
  xpath : Option String := none
  value : Option String := none
  innerText : Option String := none
  textContent : Option String := none
  node_value : Option String := none
  attributes : Option (List (String × String)) := none
  tag_name : Option String := none
deriving DecidableEq, Repr

/-- The `state` of one history item: its `selector_map` (ordinal index to
node info), a dict keyed by `int`. -/
structure StateSnap where
  selector_map : List (Int × NodeInfo) := []
deriving DecidableEq, Repr

/-- One item of the serialized agent history. -/
structure HistoryItem where
  state : Option StateSnap := none
  model_output : Option ModelOutput := none
deriving DecidableEq, Repr

/-- The `result_location` dict: the marker for the page element holding
the final answer.  Every field is optional because the dict starts as
`{index, description}` and enrichment adds keys. -/
structure RLoc where
  index : Option Int := none
  description : Option String := none
  xpath : Option String := none
  text_content : Option String := none
  element_id : Option String := none
  element_class : Option String := none
  element_name : Option String := none
  tag_name : Option String := none
deriving DecidableEq, Repr

/-- One collected parameter as serialized into
`metadata['collected_parameters']['parameters']` (only the keys the
planner reads; values collected from the user are strings, so the
source's `str(param.get('value',''))` is the identity here). -/
structure CParam where
  name : String
  value : String
deriving DecidableEq, Repr

/-- `metadata['collected_parameters']`: `{'parameters': [...], 'count': N}`.
The planner receives `metadata.get('collected_parameters', {})`; the falsy
default `{}` is modelled as `Option.none` at the use sites. -/
structure CollectedParams where
  parameters : List CParam := []
  count : Nat := 0
deriving DecidableEq, Repr

/-- A compiled plan step (`PlanStep` in `shared_views.py`). -/
structure PlanStep where
  sequence_id : Nat
  action : ActionType
  params : PParams := []
  description : String := ""
  original_action : Option String := none
  original_params : Option AParams := none
deriving DecidableEq, Repr

/-- Plan metadata (`PlanMetadata` in `shared_views.py`); the generated
uuid and the timestamps are abstracted (caller-supplied / omitted). -/
structure PlanMetadata where
  plan_id : String := ""
  name : String := ""
  description : String := ""
  url : Option String := none
  required_params : List String := []
  tags : List String := []
  expected_output : Option String := none
deriving DecidableEq, Repr

/-- A complete plan. -/
structure Plan where
  metadata : PlanMetadata
  steps : List PlanStep := []
deriving DecidableEq, Repr

/-- The metadata dict of a `MapperResult` (only the keys the planner
reads).  `collected_parameters` is `none` when the key is absent, i.e.
when `metadata.get('collected_parameters', {})` yields the falsy `{}`. -/
structure MapperMetadata where
  collected_parameters : Option CollectedParams := none
  parameter_names : List String := []
  result_location : Option RLoc := none
  starting_url : Option String := none
  tags : List String := []
deriving DecidableEq, Repr

/-- `MapperResult` from `shared_views.py`.  `raw_history = none` models a
falsy `raw_history` (Python `None` or the empty dict `{}`); `some l`
models a dict whose `'history'` key holds the list `l`. -/
structure MapperResult where
  objective : String := ""
  success : Bool := false
  raw_history : Option (List HistoryItem) := none
  error_message : Option String := none
  metadata : MapperMetadata := {}
deriving DecidableEq, Repr

/-! ## Planner algorithms (`seventech/planner/service.py`) -/

/-- `Planner._find_parameter_by_value`: first collected parameter whose
recorded value equals the text, scanning the `parameters` list in order.
Empty text and an absent/falsy `collected_params` yield `None`. -/
def findParameterByValue (value : String) (cp : Option CollectedParams) :
    Option String :=
  if value = "" then none
  else
    match cp with
    | none => none
    | some c =>
      c.parameters.findSome? fun p =>
        if p.value = value then some p.name else none

/-- Scan for the Python regex `id='([^']+)'` (resp. `name='([^']+)'`):
the literal lead-in, a nonempty run of non-quote characters, a closing
quote; first match wins, failed positions keep scanning. -/
def searchAttrQuoted (pre : List Char) : List Char → Option String
  | [] => none
  | c :: cs =>
    if startsWith pre (c :: cs) then
      let rest := (c :: cs).drop pre.length
      let cap := rest.takeWhile fun x => x ≠ '\''
      if cap ≠ [] ∧ (rest.drop cap.length).head? = some '\'' then
        some (String.mk cap)
      else searchAttrQuoted pre cs
    else searchAttrQuoted pre cs

/-- `Planner._extract_param_name`: derive a parameter name from an xpath's
`id='...'` or `name='...'` attribute, else the generic `'user_input'`. -/
def extractParamName (xpath : String) : String :=
  let s := xpath.data
  match (if containsSub "id=".data s then searchAttrQuoted "id='".data s
         else none) with
  | some n => n
  | none =>
    match (if containsSub "name=".data s then searchAttrQuoted "name='".data s
           else none) with
    | some n => n
    | none => "user_input"

/-- `Planner._convert_params`: convert one recorded action's parameters to
executor parameters, building the dict in the source's insertion order. -/
def convertParams (ty : ActionType) (p : AParams) (cp : Option CollectedParams)
    (rl : Option RLoc) : PParams :=
  match ty with
  | .goto => [("url", .str (p.url.getD ""))]
  | .click =>
    [("index", .int (p.index.getD 0)), ("xpath", .str (p.xpath.getD ""))]
  | .input =>
    let text := p.text.getD ""
    let base : PParams :=
      [("index", .int (p.index.getD 0)), ("xpath", .str (p.xpath.getD ""))]
    let paramName := findParameterByValue text cp
    -- `if param_name:` — Python truthiness: a found parameter with an
    -- empty-string name is falsy and falls to the heuristic branch.
    if optTruthy paramName then
      base ++ [("text", .str (placeholderText (paramName.getD ""))),
               ("is_parameterized", .bool true)]
    else
      base ++ [("text", .str text),
               ("is_parameterized", .bool (shouldParameterize text))]
  | .select =>
    [("index", .int (p.index.getD 0)), ("value", .str (p.value.getD "")),
     ("xpath", .str (p.xpath.getD ""))]
  | .scroll =>
    [("direction", .str (p.direction.getD "down")),
     ("amount", .int (p.amount.getD 500))]
  | .wait => [("duration_ms", .int (p.duration.getD 1000))]
  | .extract =>
    match rl with
    | some r =>
      let q := if optTruthy p.query then p.query.getD "" else r.description.getD ""
      [("query", .str q), ("is_final_result", .bool true)]
    | none =>
      [("query", .str (p.query.getD "")), ("is_final_result", .bool false)]
  | .screenshot => [("full_page", .bool (p.full_page.getD false))]
  | .download => []
  | .upload => []

/-- `Planner._generate_step_description`. -/
def generateStepDescription (ty : ActionType) (params : PParams) : String :=
  let selector : String :=
    let xpath := pGetStr params "xpath"
    if xpath ≠ "" then xpath else "element #" ++ toString (pGetInt params "index")
  match ty with
  | .goto =>
    let url := match pGet params "url" with
      | some (.str s) => s
      | _ => "URL"
    "Navigate to " ++ url
  | .click => "Click " ++ selector
  | .input =>
    let preview := String.mk ((pGetStr params "text").data.take 30)
    "Input text into " ++ selector ++ ": '" ++ preview ++ "...'"
  | .select => "Select option in " ++ selector
  | .scroll => "Scroll " ++ pGetStr params "direction"
  | .wait =>
    let d := match pGet params "duration_ms" with
      | some (.int n) => n
      | _ => 0
    "Wait " ++ toString d ++ "ms"
  | .extract => "Extract content from page"
  | .screenshot => "Take screenshot"
  | _ => "Execute " ++ ty.value

/-- The fixed vendor-name-to-canonical-kind table (`action_mapping`). -/
def actionMapping (name : String) : Option ActionType :=
  if name = "navigate" then some .goto
  else if name = "click" then some .click
  else if name = "input" then some .input
  else if name = "select" then some .select
  else if name = "scroll" then some .scroll
  else if name = "wait" then some .wait
  else if name = "extract" then some .extract
  else if name = "screenshot" then some .screenshot
  else none

/-- `Planner._convert_action_to_step`: empty action dicts and
`mark_result_location` yield no step; unknown names are dropped. -/
def convertActionToStep (a : Action) (sequenceId : Nat)
    (cp : Option CollectedParams) (rl : Option RLoc) : Option PlanStep :=
  match a with
  | [] => none
  | (nm, _) :: _ =>
    if nm = "mark_result_location" then none
    else
      match actionMapping nm with
      | none => none
      | some ty =>
        let ps := (List.lookup nm a).getD {}
        let converted := convertParams ty ps cp rl
        some { sequence_id := sequenceId, action := ty, params := converted,
               description := generateStepDescription ty converted,
               original_action := some nm, original_params := some ps }

/-- First truthy value of an `a or b or c or ...` chain of optional
strings. -/
def firstTruthyStr (l : List (Option String)) : Option String :=
  l.findSome? fun o =>
    match o with
    | some s => if s ≠ "" then some s else none
    | none => none

/-- The snapshot branch of `Planner._enrich_result_location_with_xpath`:
copy xpath / text content / id / class / name / tag name out of the
node-info dict into the result-location record. -/
def buildEnriched (acc : RLoc) (node : NodeInfo) : RLoc :=
  let acc := match node.xpath with
    | some s => if s ≠ "" then { acc with xpath := some s } else acc
    | none => acc
  let acc := match firstTruthyStr
      [node.value, node.innerText, node.textContent, node.node_value] with
    | some t => { acc with text_content := some t }
    | none => acc
  let acc := match node.attributes with
    | some attrs =>
      let acc := match List.lookup "id" attrs with
        | some v => if v ≠ "" then { acc with element_id := some v } else acc
        | none => acc
      let acc := match List.lookup "class" attrs with
        | some v => if v ≠ "" then { acc with element_class := some v } else acc
        | none => acc
      match List.lookup "name" attrs with
      | some v => if v ≠ "" then { acc with element_name := some v } else acc
      | none => acc
    | none => acc
  match node.tag_name with
  | some v => { acc with tag_name := some v }
  | none => acc

/-- The action-scan branch of the enrichment loop: if this recorded action
referenced the target index and carries a truthy xpath, and no xpath has
been captured yet, copy it. -/
def actionXpathScan (target : Int) (acc : RLoc) (a : Action) : RLoc :=
  match a with
  | [] => acc
  | (nm, _) :: _ =>
    let ps := (List.lookup nm a).getD {}
    if ps.index = some target ∧ optTruthy ps.xpath ∧ acc.xpath = none then
      { acc with xpath := ps.xpath }
    else acc

/-- Per-item action scan (`model_output` absent means nothing to scan). -/
def scanItemActions (target : Int) (acc : RLoc) (item : HistoryItem) : RLoc :=
  match item.model_output with
  | none => acc
  | some mo => mo.action.foldl (actionXpathScan target) acc

/-- The enrichment loop: the first snapshot containing the target index
wins and returns immediately; items without a hit contribute their
action-scan and the loop continues. -/
def enrichGo (target : Int) : List HistoryItem → RLoc → RLoc
  | [], acc => acc
  | item :: rest, acc =>
    match item.state with
    | some st =>
      match List.lookup target st.selector_map with
      | some node => buildEnriched acc node
      | none => enrichGo target rest (scanItemActions target acc item)
    | none => enrichGo target rest (scanItemActions target acc item)

/-- `Planner._enrich_result_location_with_xpath`. -/
def enrichResultLocation (hist : List HistoryItem) (rl : RLoc) : RLoc :=
  match rl.index with
  | none => rl
  | some target => enrichGo target hist rl

/-- Convert the actions of one `model_output`, threading the sequence id
(only converted actions advance it, so after this list the next id is
`sid` plus the number of steps produced). -/
def convertActions (cp : Option CollectedParams) (rl : Option RLoc) :
    List Action → Nat → List PlanStep
  | [], _ => []
  | a :: rest, sid =>
    match convertActionToStep a sid cp rl with
    | some st => st :: convertActions cp rl rest (sid + 1)
    | none => convertActions cp rl rest sid

/-- The history walk of `Planner._extract_steps` (after the enrichment
pre-pass): items without `model_output` are skipped; the single mutable
`sequence_id` counter advances by the number of steps produced so far. -/
def extractStepsGo (cp : Option CollectedParams) (rl : Option RLoc) :
    List HistoryItem → Nat → List PlanStep
  | [], _ => []
  | item :: rest, sid =>
    match item.model_output with
    | none => extractStepsGo cp rl rest sid
    | some mo =>
      let l := convertActions cp rl mo.action sid
      l ++ extractStepsGo cp rl rest (sid + l.length)

/-- `Planner._extract_steps`: enrich the result location when it lacks a
truthy xpath, then walk the history. -/
def extractSteps (hist : List HistoryItem) (cp : Option CollectedParams)
    (rl : Option RLoc) : List PlanStep :=
  let rl := match rl with
    | some r =>
      if optTruthy r.xpath then some r else some (enrichResultLocation hist r)
    | none => none
  extractStepsGo cp rl hist 0

/-- Lexicographic code-point comparison of two character lists: the order
Python's `sorted` uses on strings. -/
def charListLe : List Char → List Char → Bool
  | [], _ => true
  | _ :: _, [] => false
  | a :: xs, b :: ys => if a = b then charListLe xs ys else decide (a < b)

def pyStrLe (a b : String) : Bool :=
  charListLe a.data b.data

/-- Insertion sort by a boolean comparison (structural, so it evaluates in
the kernel; models Python's `sorted`). -/
def insertSorted (le : String → String → Bool) (x : String) :
    List String → List String
  | [] => [x]
  | y :: ys => if le x y then x :: y :: ys else y :: insertSorted le x ys

def sortStrings : List String → List String
  | [] => []
  | x :: xs => insertSorted pyStrLe x (sortStrings xs)

/-- Keep-first deduplication.  Models the *set* built by
`set(...)` / `list(set(...))`: membership is faithful; the order CPython
produces is hash-dependent and unspecified, so no theorem relies on the
order of the result, only on membership. -/
def pyDedup : List String → List String
  | [] => []
  | x :: xs => x :: (pyDedup xs).filter fun y => y ≠ x

/-- `Planner._identify_parameters`: the sorted set of xpath-derived names
of Input steps flagged `is_parameterized`. -/
def identifyParameters (steps : List PlanStep) : List String :=
  let names := steps.filterMap fun st =>
    if st.action = .input ∧ pTruthy (pGet st.params "is_parameterized") then
      some (extractParamName (pGetStr st.params "xpath"))
    else none
  sortStrings (pyDedup names)

/-- Python `\s` (ASCII fragment). -/
def pyIsSpace (c : Char) : Bool :=
  c = ' ' || c = '\t' || c = '\n' || c = '\r' || c = '\x0b' || c = '\x0c'

/-- Collapse every run of whitespace to a single underscore
(`re.sub(r'\s+', '_', name)`); fueled for kernel evaluation. -/
def collapseWsFuel : Nat → List Char → List Char
  | 0, s => s
  | _, [] => []
  | f + 1, c :: cs =>
    if pyIsSpace c then '_' :: collapseWsFuel f (cs.dropWhile pyIsSpace)
    else c :: collapseWsFuel f cs

/-- `Planner._generate_plan_name`: first 50 chars, lowercased, special
characters removed, whitespace runs to underscores, underscores stripped. -/
def generatePlanName (objective : String) : String :=
  let name := (objective.data.take 50).map Char.toLower
  let name := name.filter fun c =>
    c.isLower || c.isDigit || pyIsSpace c || c = '-'
  let name := collapseWsFuel name.length name
  let name := (name.dropWhile fun c => c = '_')
  let name := ((name.reverse.dropWhile fun c => c = '_')).reverse
  String.mk name

/-- `Planner.create_plan`.  Input-validation failures are `Except.error`
with the source's message; uuid and timestamp are abstracted. -/
def createPlan (m : MapperResult) (planName : Option String) :
    Except String Plan :=
  if m.success = false then
    .error ("Cannot create plan from failed mapping: " ++ pyStr m.error_message)
  else
    match m.raw_history with
    | none => .error "Mapper result contains no history data"
    | some hist =>
      let collected := m.metadata.collected_parameters
      let parameterNames := m.metadata.parameter_names
      let rl := m.metadata.result_location
      let steps := extractSteps hist collected rl
      let autoDetected := identifyParameters steps
      let requiredParams := pyDedup (autoDetected ++ parameterNames)
      let expectedOutput := match rl with
        | some r => r.description
        | none => none
      .ok { metadata := {
              -- `plan_name or self._generate_plan_name(...)`: Python `or`
              -- falls through on a falsy (absent or empty) plan name.
              name := if optTruthy planName then planName.getD ""
                      else generatePlanName m.objective,
              description := m.objective,
              url := m.metadata.starting_url,
              required_params := requiredParams,
              tags := m.metadata.tags,
              expected_output := expectedOutput },
            steps := steps }

/-! ## Executor data model (`seventech/executor/views.py`, `shared_views.py`) -/

/-- `ExecutorConfig` with its source defaults. -/
structure ExecutorConfig where
  headless : Bool := true
  timeout_seconds : Nat := 60
  step_timeout_ms : Nat := 10000
  save_screenshots : Bool := true
  screenshot_on_error : Bool := true
  retry_on_error : Bool := true
deriving DecidableEq, Repr

structure ExecutePlanRequest where
  plan_id : String := ""
  params : PParams := []
  config_overrides : Option ExecutorConfig := none
deriving DecidableEq, Repr

inductive ArtifactType where
  | text | image | pdf | file | json | screenshot
deriving DecidableEq, Repr

/-- An artifact (uuid abstracted). -/
structure Artifact where
  type : ArtifactType
  name : String
  content : Option String := none
  file_path : Option String := none
  metadata : PParams := []
deriving DecidableEq, Repr

inductive ExecutionStatus where
  | success | partial_success | failure | timeout | error
deriving DecidableEq, Repr

/-- `ExecutionResult` (execution uuid and free-form metadata abstracted;
`execution_time_ms` is set by the caller from wall-clock time, which is
not modelled). -/
structure ExecutionResult where
  plan_id : String
  status : ExecutionStatus
  artifacts : List Artifact := []
  steps_completed : Nat := 0
  total_steps : Nat := 0
  error_message : Option String := none
deriving DecidableEq, Repr

/-! ## Executor: parameter injection (`Executor._inject_params`) -/

/-- The inner loop of `Executor._inject_params` on one string value:
`re.findall` the placeholder names of the *original* value, then for each
name present in the user parameters, `str.replace` every occurrence of its
placeholder in the *evolving* value with `str(user_params[name])`.
Values without the substring `{param:` are returned untouched.
The function is total: injection never raises. -/
def injectString (userParams : PParams) (v : String) : String :=
  if containsSub "\x7bparam:".data v.data then
    String.mk ((findPlaceholders v.data).foldl (fun acc n =>
      match pGet userParams n with
      | some val => replaceAll (placeholderText n).data (pvalStr val).data acc
      | none => acc) v.data)
  else v

/-- `Executor._inject_params`: copy the step parameters, rewriting every
string value; non-string values are untouched. -/
def injectParams (stepParams userParams : PParams) : PParams :=
  stepParams.map fun kv =>
    match kv.2 with
    | .str s => (kv.1, PVal.str (injectString userParams s))
    | _ => kv

/-! ## Executor: element resolution (`Executor._find_element`)

The live page is modelled by its freshly-queried addressable-element map
(`selector_map`, ordinal index to DOM node), per the page-model
collaborator interface of the spec; `browser.get_element_by_index` is
lookup in that map. -/

/-- A DOM node as probed by `_find_element`: each field `none` models a
missing attribute (failed `hasattr`) or `None`. -/
structure DomNode where
  attributes : Option (List (String × String)) := none
  xpath : Option String := none
  tag_name : Option String := none
  node_value : Option String := none
deriving DecidableEq, Repr

/-- `hasattr(node, 'attributes') and node.attributes`: present and truthy
(a non-empty dict). -/
def attrsTruthy (n : DomNode) : Option (List (String × String)) :=
  match n.attributes with
  | some l => if l ≠ [] then some l else none
  | none => none

/-- Strategy 2: first node whose `attributes.get('id')` equals the id. -/
def findById (selectorMap : List (Int × DomNode)) (elementId : String) :
    Option DomNode :=
  selectorMap.findSome? fun e =>
    match attrsTruthy e.2 with
    | some attrs =>
      if List.lookup "id" attrs = some elementId then some e.2 else none
    | none => none

/-- Strategy 3: first node whose `xpath` attribute equals the xpath. -/
def findByXpath (selectorMap : List (Int × DomNode)) (xpath : String) :
    Option DomNode :=
  selectorMap.findSome? fun e =>
    if e.2.xpath = some xpath then some e.2 else none

/-- The node text probed by strategy 4: `value or innerText or
textContent` from the attributes, else `node_value`, with truthiness. -/
def nodeTextOf (n : DomNode) : Option String :=
  let t1 := match attrsTruthy n with
    | some attrs =>
      firstTruthyStr [List.lookup "value" attrs, List.lookup "innerText" attrs,
        List.lookup "textContent" attrs]
    | none => none
  let t2 := if optTruthy t1 then t1 else n.node_value
  if optTruthy t2 then t2 else none

/-- Strategy 4 accumulator: best containment-scored node.  The score
`len(expected) / max(len(node_text), 1)` is kept as an exact fraction
(numerator, denominator) and compared by cross-multiplication; the source
compares Python floats, which agree on these small integer ratios. -/
def textSimBest (selectorMap : List (Int × DomNode)) (expected : String) :
    Option DomNode × (Nat × Nat) :=
  selectorMap.foldl (fun acc e =>
    match nodeTextOf e.2 with
    | some nt =>
      if containsSub expected.data nt.data || containsSub nt.data expected.data then
        let score : Nat × Nat := (expected.length, max nt.length 1)
        if score.1 * acc.2.2 > acc.2.1 * score.2 then (some e.2, score) else acc
      else acc
    | none => acc) (none, (0, 1))

/-- Strategy 5: first node matching tag name and `class` attribute. -/
def findByTagClass (selectorMap : List (Int × DomNode)) (tagName elementClass : String) :
    Option DomNode :=
  selectorMap.findSome? fun e =>
    if e.2.tag_name = some tagName then
      match attrsTruthy e.2 with
      | some attrs =>
        if List.lookup "class" attrs = some elementClass then some e.2 else none
      | none => none
    else none

/-- The diagnostic message raised when every strategy failed. -/
def findElementErrorMsg (index : Int) (elementId xpath expectedText : String) :
    String :=
  "Element not found after trying all strategies:\n" ++
    "  - index: " ++ toString index ++ "\n" ++
    (if elementId ≠ "" then "  - element_id: " ++ elementId ++ "\n" else "") ++
    (if xpath ≠ "" then
      "  - xpath: " ++ String.mk (xpath.data.take 100) ++ "...\n" else "") ++
    (if expectedText ≠ "" then
      "  - expected_text: " ++ String.mk (expectedText.data.take 100) ++ "...\n"
     else "")

/-- `Executor._find_element`: an empty current element map raises
`'No DOM state available'`; otherwise the five strategies are tried in
order — ordinal index, identifier attribute, structural path, text
similarity (accepted only above score 0.3), tag plus class — and the
first hit is returned. -/
def findElement (selectorMap : List (Int × DomNode)) (params : PParams) :
    Except String DomNode :=
  let index := pGetInt params "index"
  let xpath := pGetStr params "xpath"
  let elementId := pGetStr params "element_id"
  let elementClass := pGetStr params "element_class"
  let tagName := pGetStr params "tag_name"
  let expectedText := pGetStr params "expected_text"
  if selectorMap = [] then .error "No DOM state available"
  else
    match List.lookup index selectorMap with
    | some node => .ok node
    | none =>
      match (if elementId ≠ "" then findById selectorMap elementId else none) with
      | some node => .ok node
      | none =>
        match (if xpath ≠ "" then findByXpath selectorMap xpath else none) with
        | some node => .ok node
        | none =>
          let best := if expectedText ≠ "" then textSimBest selectorMap expectedText
            else (none, (0, 1))
          match (if best.2.1 * 10 > 3 * best.2.2 then best.1 else none) with
          | some node => .ok node
          | none =>
            match (if tagName ≠ "" ∧ elementClass ≠ "" then
                findByTagClass selectorMap tagName elementClass else none) with
            | some node => .ok node
            | none => .error (findElementErrorMsg index elementId xpath expectedText)

/-! ## Executor: the step loop and the top-level run

Browser effects are oracles: `Dispatch pos attempt injected` is the
outcome of `_execute_action` for the step at position `pos` of the plan,
on its first (`0`) or retry (`1`) attempt, after parameter injection.
The attempt number lets the oracle model a live page that answers
differently on retry (the element is re-resolved from scratch).  Each
invocation is recorded as an event. -/

inductive ExecEvent where
  | startBrowser
  | stopBrowser
  | dispatchStep (pos : Nat) (attempt : Nat)
  | retryPause
  | errorScreenshot
deriving DecidableEq, Repr

abbrev Dispatch := Nat → Nat → PParams → Except String (List Artifact)

/-- The loop body of `Executor._execute_steps` over the remaining
(position, step) pairs, carrying accumulated artifacts, the
completed-step count, and the event log. -/
def executeStepsGo (d : Dispatch) (cfg : ExecutorConfig) (planId : String)
    (user : PParams) (total : Nat) :
    List (Nat × PlanStep) → List Artifact → Nat → List ExecEvent →
    ExecutionResult × List ExecEvent
  | [], artifacts, completed, log =>
    ({ plan_id := planId, status := .success, artifacts := artifacts,
       steps_completed := completed, total_steps := total }, log)
  | (pos, step) :: rest, artifacts, completed, log =>
    match d pos 0 (injectParams step.params user) with
    | .ok arts =>
      executeStepsGo d cfg planId user total rest (artifacts ++ arts)
        (completed + 1) (log ++ [.dispatchStep pos 0])
    | .error e =>
      if cfg.retry_on_error then
        match d pos 1 (injectParams step.params user) with
        | .ok arts =>
          executeStepsGo d cfg planId user total rest (artifacts ++ arts)
            (completed + 1)
            (log ++ [.dispatchStep pos 0, .retryPause, .dispatchStep pos 1])
        | .error _retryError =>
          ({ plan_id := planId, status := .failure, artifacts := artifacts,
             steps_completed := completed, total_steps := total,
             error_message := some ("Step " ++ toString step.sequence_id ++
               " failed: " ++ e) },
           log ++ [.dispatchStep pos 0, .retryPause, .dispatchStep pos 1])
      else
        ({ plan_id := planId, status := .failure, artifacts := artifacts,
           steps_completed := completed, total_steps := total,
           error_message := some ("Step " ++ toString step.sequence_id ++
             " failed: " ++ e) },
         log ++ [.dispatchStep pos 0])

/-- `Executor._execute_steps`. -/
def executeSteps (d : Dispatch) (cfg : ExecutorConfig) (planId : String)
    (steps : List PlanStep) (user : PParams) :
    ExecutionResult × List ExecEvent :=
  executeStepsGo d cfg planId user steps.length steps.enum [] 0 []

/-- `Executor.execute_plan`.  `startR`/`stopR` are the outcomes of
`browser.start()` / `browser.stop()`, `shotR` of the error-screenshot
attempt.  `stop` is invoked in the `finally` block on every path and its
own failure is swallowed, so `stopR` influences neither result nor
control flow; the invocation itself is the `.stopBrowser` event. -/
def executePlan (startR stopR : Except String Unit)
    (shotR : Except String (Option String)) (d : Dispatch)
    (defaultConfig : ExecutorConfig) (plan : Plan)
    (request : ExecutePlanRequest) : ExecutionResult × List ExecEvent :=
  let cfg := request.config_overrides.getD defaultConfig
  match startR with
  | .ok _ =>
    let (res, log) := executeSteps d cfg plan.metadata.plan_id plan.steps request.params
    let _ := stopR
    (res, .startBrowser :: log ++ [.stopBrowser])
  | .error e =>
    let shotArtifacts := if cfg.screenshot_on_error then
        match shotR with
        | .ok (some content) =>
          [{ type := .screenshot, name := "error_screenshot.png",
             content := some content, metadata := [("error", .str e)] }]
        | .ok none => []
        | .error _ => []
      else []
    let shotEvents := if cfg.screenshot_on_error then [ExecEvent.errorScreenshot]
      else []
    let _ := stopR
    ({ plan_id := plan.metadata.plan_id, status := .error,
       artifacts := shotArtifacts, steps_completed := 0,
       total_steps := plan.steps.length, error_message := some e },
     .startBrowser :: shotEvents ++ [.stopBrowser])

/-! ## Interactive session state machine (`seventech/mapper/session.py`,
`seventech/api/session_manager.py`) -/

inductive SessionStatus where
  | initialized | running | waiting_for_input | completed | failed | cancelled
deriving DecidableEq, Repr, Fintype

/-- The operations that write a session's status.  `requestInput` is the
`set_status(WAITING_FOR_INPUT)` at the top of `MapperSession.request_input`;
`deliverSuccess` is the `set_status(RUNNING)` after the awaited input
callback returns a value; `deliverFailure` is the `set_status(FAILED)` in
the `except Exception` branch, reached when the callback raises an
`Exception` — a callback error or the timeout's `TimeoutError`.  A
*cancelled* wait raises `asyncio.CancelledError`, a `BaseException` that
`except Exception` does not catch, so a cancelled wait performs no status
write here at all (the status stays whatever `cancel` wrote).  `complete`,
`fail` and `cancel` are the corresponding session methods, `cancel` also
being what `SessionManager.cancel_session` invokes. -/
inductive SessionOp where
  | requestInput
  | deliverSuccess
  | deliverFailure
  | complete
  | fail
  | cancel
deriving DecidableEq, Repr, Fintype

/-- Every transition in the source is an unguarded `set_status`, so the
status written depends only on the operation, never on the current
status. -/
def sessionStep : SessionOp → SessionStatus → SessionStatus
  | .requestInput, _ => .waiting_for_input
  | .deliverSuccess, _ => .running
  | .deliverFailure, _ => .failed
  | .complete, _ => .completed
  | .fail, _ => .failed
  | .cancel, _ => .cancelled

/-- Completed, Failed and Cancelled are the terminal statuses. -/
def terminalStatus : SessionStatus → Bool
  | .completed => true
  | .failed => true
  | .cancelled => true
  | _ => false

/-! ## Spec-side definitions

These follow the *spec's words* (not the source) and exist to be compared
with the source-derived definitions above. -/

/-- Spec side, for claim C1: "the set of distinct parameter names
referenced by `{param:NAME}` placeholders across all of the plan's steps,
deduplicated and sorted in ascending order". -/
def planPlaceholderNames (p : Plan) : List String :=
  sortStrings (pyDedup (p.steps.flatMap fun st =>
    st.params.flatMap fun kv =>
      match kv.2 with
      | .str s => findPlaceholders s.data
      | _ => []))

/-- Spec side, for claim C3: simultaneous per-occurrence substitution —
each `{param:NAME}` occurrence of the *original* text is replaced by the
caller's value for NAME when present and kept as literal text otherwise
(fueled scanner; each step consumes at least one character). -/
def specSubstituteFuel (user : PParams) : Nat → List Char → List Char
  | 0, s => s
  | _, [] => []
  | f + 1, c :: cs =>
    match readPlaceholder (c :: cs) with
    | some (n, rest) =>
      (match pGet user (String.mk n) with
       | some val => (pvalStr val).data
       | none => (placeholderText (String.mk n)).data) ++
        specSubstituteFuel user f rest
    | none => c :: specSubstituteFuel user f cs

def specSubstitute (user : PParams) (s : String) : String :=
  String.mk (specSubstituteFuel user s.data.length s.data)

/-- Spec side, for claim C3: injection as simultaneous substitution on
every string-valued field. -/
def specInjectParams (stepParams userParams : PParams) : PParams :=
  stepParams.map fun kv =>
    match kv.2 with
    | .str s => (kv.1, PVal.str (specSubstitute userParams s))
    | _ => kv

/-! # Helper lemmas -/

theorem pyDedup_mem {a : String} : ∀ {l : List String}, a ∈ pyDedup l ↔ a ∈ l := by
  intro l
  induction l with
  | nil => simp [pyDedup]
  | cons x xs ih =>
    simp only [pyDedup, List.mem_cons, List.mem_filter, ih]
    constructor
    · rintro (rfl | ⟨h, _⟩)
      · exact .inl rfl
      · exact .inr h
    · rintro (rfl | h)
      · exact .inl rfl
      · by_cases hax : a = x
        · exact .inl hax
        · exact .inr ⟨h, by simpa using hax⟩

theorem pyDedup_nodup : ∀ l : List String, (pyDedup l).Nodup := by
  intro l
  induction l with
  | nil => simp [pyDedup]
  | cons x xs ih =>
    simp only [pyDedup, List.nodup_cons]
    refine ⟨?_, ih.filter _⟩
    simp

/-! # Claim C10: invariants of the executor step loop -/

theorem executeStepsGo_result (d : Dispatch) (cfg : ExecutorConfig)
    (planId : String) (user : PParams) (total : Nat) :
    ∀ (l : List (Nat × PlanStep)) (arts : List Artifact) (completed : Nat)
      (log : List ExecEvent),
      (executeStepsGo d cfg planId user total l arts completed log).1.total_steps
          = total ∧
      (((executeStepsGo d cfg planId user total l arts completed log).1.status
            = .success ∧
          (executeStepsGo d cfg planId user total l arts completed log).1.steps_completed
            = completed + l.length) ∨
        ((executeStepsGo d cfg planId user total l arts completed log).1.status
            = .failure ∧
          completed ≤ (executeStepsGo d cfg planId user total l arts completed log).1.steps_completed ∧
          (executeStepsGo d cfg planId user total l arts completed log).1.steps_completed
            < completed + l.length)) := by
  intro l
  induction l with
  | nil =>
    intro arts completed log
    simp [executeStepsGo]
  | cons hd tl ih =>
    intro arts completed log
    obtain ⟨pos, step⟩ := hd
    cases hd0 : d pos 0 (injectParams step.params user) with
    | ok a =>
      simp only [executeStepsGo, hd0]
      have h := ih (arts ++ a) (completed + 1) (log ++ [.dispatchStep pos 0])
      rcases h with ⟨ht, hs | hf⟩
      · exact ⟨ht, .inl ⟨hs.1, by simp only [List.length_cons]; omega⟩⟩
      · exact ⟨ht, .inr ⟨hf.1, by omega, by simp only [List.length_cons]; omega⟩⟩
    | error e =>
      cases hr : cfg.retry_on_error with
      | true =>
        cases hd1 : d pos 1 (injectParams step.params user) with
        | ok a =>
          simp only [executeStepsGo, hd0, hr, if_true, hd1]
          have h := ih (arts ++ a) (completed + 1)
            (log ++ [.dispatchStep pos 0, .retryPause, .dispatchStep pos 1])
          rcases h with ⟨ht, hs | hf⟩
          · exact ⟨ht, .inl ⟨hs.1, by simp only [List.length_cons]; omega⟩⟩
          · exact ⟨ht, .inr ⟨hf.1, by omega, by simp only [List.length_cons]; omega⟩⟩
        | error e2 =>
          simp only [executeStepsGo, hd0, hr, if_true, hd1]
          refine ⟨by trivial, .inr ⟨by trivial, by omega, ?_⟩⟩
          simp only [List.length_cons]
          omega
      | false =>
        simp only [executeStepsGo, hd0, hr, Bool.false_eq_true, if_false]
        refine ⟨by trivial, .inr ⟨by trivial, by omega, ?_⟩⟩
        simp only [List.length_cons]
        omega

/-- C10: every `ExecutionResult` returned by the executor's step loop
(`Executor._execute_steps`) satisfies `0 ≤ steps_completed ≤ total_steps`;
its status is Success exactly when `steps_completed = total_steps`; and
every Failure result from the loop has `steps_completed < total_steps`. -/
theorem step_loop_result_invariants (d : Dispatch) (cfg : ExecutorConfig)
    (planId : String) (steps : List PlanStep) (user : PParams) :
    0 ≤ (executeSteps d cfg planId steps user).1.steps_completed ∧
    (executeSteps d cfg planId steps user).1.steps_completed
      ≤ (executeSteps d cfg planId steps user).1.total_steps ∧
    ((executeSteps d cfg planId steps user).1.status = .success ↔
      (executeSteps d cfg planId steps user).1.steps_completed
        = (executeSteps d cfg planId steps user).1.total_steps) ∧
    ((executeSteps d cfg planId steps user).1.status = .failure →
      (executeSteps d cfg planId steps user).1.steps_completed
        < (executeSteps d cfg planId steps user).1.total_steps) := by
  have h := executeStepsGo_result d cfg planId user steps.length steps.enum [] 0 []
  have hlen : steps.enum.length = steps.length := List.enum_length
  rw [hlen] at h
  unfold executeSteps
  rcases h with ⟨ht, hs | hf⟩
  · refine ⟨Nat.zero_le _, ?_, ?_, ?_⟩
    · rw [ht, hs.2]; omega
    · rw [ht, hs.2]; exact ⟨fun _ => by omega, fun _ => hs.1⟩
    · intro hfail; rw [hs.1] at hfail; cases hfail
  · refine ⟨Nat.zero_le _, ?_, ?_, ?_⟩
    · rw [ht]; omega
    · constructor
      · intro hsucc; rw [hf.1] at hsucc; cases hsucc
      · intro heq; rw [ht] at heq; omega
    · intro _; rw [ht]; omega

/-! # Claim C8: the browser is stopped exactly once per execution -/

theorem executeStepsGo_stop_count (d : Dispatch) (cfg : ExecutorConfig)
    (planId : String) (user : PParams) (total : Nat) :
    ∀ (l : List (Nat × PlanStep)) (arts : List Artifact) (completed : Nat)
      (log : List ExecEvent),
      (executeStepsGo d cfg planId user total l arts completed log).2.count
          .stopBrowser = log.count .stopBrowser := by
  intro l
  induction l with
  | nil =>
    intro arts completed log
    simp [executeStepsGo]
  | cons hd tl ih =>
    intro arts completed log
    obtain ⟨pos, step⟩ := hd
    cases hd0 : d pos 0 (injectParams step.params user) with
    | ok a =>
      simp only [executeStepsGo, hd0]
      rw [ih]
      simp [List.count_append, List.count_cons]
    | error e =>
      cases hr : cfg.retry_on_error with
      | true =>
        cases hd1 : d pos 1 (injectParams step.params user) with
        | ok a =>
          simp only [executeStepsGo, hd0, hr, if_true, hd1]
          rw [ih]
          simp [List.count_append, List.count_cons]
        | error e2 =>
          simp only [executeStepsGo, hd0, hr, if_true, hd1]
          simp [List.count_append, List.count_cons]
      | false =>
        simp only [executeStepsGo, hd0, hr, Bool.false_eq_true, if_false]
        simp [List.count_append, List.count_cons]

/-- C8: on every exit path of `Executor.execute_plan` — success, step
failure, or a top-level error such as the browser failing to start — the
page-model resource's stop/teardown (`browser.stop()`, the `.stopBrowser`
event) is invoked exactly once before the call returns. -/
theorem execute_plan_stops_browser_exactly_once (startR stopR : Except String Unit)
    (shotR : Except String (Option String)) (d : Dispatch)
    (defaultConfig : ExecutorConfig) (plan : Plan)
    (request : ExecutePlanRequest) :
    ((executePlan startR stopR shotR d defaultConfig plan request).2).count
      .stopBrowser = 1 := by
  cases startR with
  | ok u =>
    simp only [executePlan, executeSteps]
    simp [List.count_cons, List.count_append, executeStepsGo_stop_count]
  | error e =>
    simp only [executePlan]
    by_cases hc : (request.config_overrides.getD defaultConfig).screenshot_on_error
    · simp [hc, List.count_cons, List.count_append]
    · simp [hc, List.count_cons, List.count_append]

/-! # Claim C9: transitions out of WaitingForInput -/

/-- C9 counterexample: the claim says a session never transitions directly
from WaitingForInput to a terminal state, but `cancel` (what
`SessionManager.cancel_session` invokes) moves a WaitingForInput session
directly to Cancelled, and a failed input delivery (a callback error or
the timeout's `TimeoutError` caught by `except Exception` in
`MapperSession.request_input`) moves it directly to Failed — in both
cases without passing through Running. -/
theorem waiting_direct_terminal_counterexample :
    sessionStep .cancel .waiting_for_input = .cancelled ∧
    terminalStatus .cancelled = true ∧
    sessionStep .deliverFailure .waiting_for_input = .failed ∧
    terminalStatus .failed = true ∧
    SessionStatus.cancelled ≠ SessionStatus.running ∧
    SessionStatus.failed ≠ SessionStatus.running := by decide

/-- C9 amended: a session in WaitingForInput moves to Running exactly when
the requested input is delivered successfully; cancellation moves it
directly to Cancelled, and a failed input delivery (callback error or
timeout — not a cancelled wait, whose `CancelledError` bypasses the
`except Exception` branch and leaves the Cancelled status in place) moves
it directly to Failed, in both cases without passing through Running.
(Transitions are unguarded: the status written depends only on the
operation.) -/
theorem waiting_for_input_transitions :
    (∀ op : SessionOp,
      sessionStep op .waiting_for_input = .running ↔ op = .deliverSuccess) ∧
    sessionStep .cancel .waiting_for_input = .cancelled ∧
    sessionStep .deliverFailure .waiting_for_input = .failed ∧
    (∀ (op : SessionOp) (s s' : SessionStatus),
      sessionStep op s = sessionStep op s') := by decide

/-! # Claim C5: element-resolution strategy order -/

/-- Strategy 1 (ordinal index): the page model's `get_element_by_index` on
the freshly-queried addressable-element map. -/
def strat1 (m : List (Int × DomNode)) (p : PParams) : Option DomNode :=
  List.lookup (pGetInt p "index") m

/-- Strategy 2 (identifier attribute), with its guard. -/
def strat2 (m : List (Int × DomNode)) (p : PParams) : Option DomNode :=
  if pGetStr p "element_id" ≠ "" then findById m (pGetStr p "element_id")
  else none

/-- Strategy 3 (structural path), with its guard. -/
def strat3 (m : List (Int × DomNode)) (p : PParams) : Option DomNode :=
  if pGetStr p "xpath" ≠ "" then findByXpath m (pGetStr p "xpath") else none

/-- Strategy 4 (text similarity), with its guard and acceptance
threshold. -/
def strat4 (m : List (Int × DomNode)) (p : PParams) : Option DomNode :=
  let best := if pGetStr p "expected_text" ≠ "" then
      textSimBest m (pGetStr p "expected_text")
    else (none, (0, 1))
  if best.2.1 * 10 > 3 * best.2.2 then best.1 else none

/-- Strategy 5 (tag name plus class attribute), with its guard. -/
def strat5 (m : List (Int × DomNode)) (p : PParams) : Option DomNode :=
  if pGetStr p "tag_name" ≠ "" ∧ pGetStr p "element_class" ≠ "" then
    findByTagClass m (pGetStr p "tag_name") (pGetStr p "element_class")
  else none

/-- C5: on a non-empty current element map, `Executor._find_element` is
the first hit of the strategies in the fixed order ordinal index,
identifier attribute, structural path, text similarity, tag-plus-class,
raising the strategy-enumerating diagnostic when all miss; in particular
whenever the ordinal index resolves to an element, that element is
returned — even when the identifier attribute would match a different
element (see the witness). -/
theorem find_element_strategy_order (m : List (Int × DomNode)) (p : PParams) :
    (m ≠ [] → findElement m p =
      match (strat1 m p).orElse fun _ => (strat2 m p).orElse fun _ =>
          (strat3 m p).orElse fun _ => (strat4 m p).orElse fun _ => strat5 m p with
      | some node => .ok node
      | none => .error (findElementErrorMsg (pGetInt p "index")
          (pGetStr p "element_id") (pGetStr p "xpath")
          (pGetStr p "expected_text"))) ∧
    (∀ node, strat1 m p = some node → findElement m p = .ok node) := by
  constructor
  · intro hm
    simp only [findElement, strat1, strat2, strat3, strat4, strat5]
    rw [if_neg hm]
    cases h1 : List.lookup (pGetInt p "index") m with
    | some node => simp [Option.orElse]
    | none =>
      simp only [Option.orElse, Option.none_orElse]
      cases h2 : (if pGetStr p "element_id" ≠ "" then
          findById m (pGetStr p "element_id") else none) with
      | some node => simp
      | none =>
        simp only [Option.none_orElse]
        cases h3 : (if pGetStr p "xpath" ≠ "" then
            findByXpath m (pGetStr p "xpath") else none) with
        | some node => simp
        | none =>
          simp only [Option.none_orElse]
          cases h4 : (if (if pGetStr p "expected_text" ≠ "" then
              textSimBest m (pGetStr p "expected_text") else (none, (0, 1))).2.1 * 10 >
                3 * (if pGetStr p "expected_text" ≠ "" then
                  textSimBest m (pGetStr p "expected_text") else (none, (0, 1))).2.2 then
              (if pGetStr p "expected_text" ≠ "" then
                textSimBest m (pGetStr p "expected_text") else (none, (0, 1))).1
            else none) with
          | some node => simp
          | none => simp
  · intro node h1
    have hm : m ≠ [] := by
      intro hnil
      rw [hnil] at h1
      simp [strat1] at h1
    simp only [findElement]
    rw [if_neg hm]
    simp only [strat1] at h1
    rw [h1]

def c5Map : List (Int × DomNode) :=
  [(1, { xpath := some "/a" }), (2, { attributes := some [("id", "t")] })]

def c5Params : PParams := [("index", .int 1), ("element_id", .str "t")]

/-- C5 witness: on a concrete map where the ordinal index resolves to one
element and the identifier attribute matches a *different* element,
resolution returns the ordinal-index match. -/
theorem find_element_strategy_order_witness :
    findElement c5Map c5Params = .ok { xpath := some "/a" } ∧
    findById c5Map "t" = some { attributes := some [("id", "t")] } ∧
    ({ xpath := some "/a" } : DomNode) ≠ { attributes := some [("id", "t")] } :=
  ⟨(find_element_strategy_order c5Map c5Params).2 _ (by decide), by decide,
    by decide⟩

/-! # Claim C7: input validation and the zero-convertible-trace case -/

/-- Whether `_convert_action_to_step` produces a step depends only on the
action (empty dict, `mark_result_location`, unknown name), never on the
sequence id, the collected parameters or the result location. -/
theorem convertActionToStep_none_congr {a : Action}
    (h : convertActionToStep a 0 none none = none) (sid : Nat)
    (cp : Option CollectedParams) (rl : Option RLoc) :
    convertActionToStep a sid cp rl = none := by
  cases a with
  | nil => simp [convertActionToStep]
  | cons hd tl =>
    obtain ⟨nm, ps⟩ := hd
    simp only [convertActionToStep] at h ⊢
    by_cases h1 : nm = "mark_result_location"
    · simp [h1]
    · simp only [h1, if_false] at h ⊢
      cases h2 : actionMapping nm with
      | none => simp
      | some ty => rw [h2] at h; simp at h

theorem convertActions_nil (cp : Option CollectedParams) (rl : Option RLoc) :
    ∀ (acts : List Action) (sid : Nat),
      (∀ a ∈ acts, convertActionToStep a 0 none none = none) →
      convertActions cp rl acts sid = [] := by
  intro acts
  induction acts with
  | nil => intro sid _; rfl
  | cons a rest ih =>
    intro sid h
    have ha : convertActionToStep a sid cp rl = none :=
      convertActionToStep_none_congr (h a (by simp)) sid cp rl
    simp only [convertActions, ha]
    exact ih sid fun a' ha' => h a' (by simp [ha'])

theorem extractStepsGo_nil (cp : Option CollectedParams) (rl : Option RLoc) :
    ∀ (hist : List HistoryItem) (sid : Nat),
      (∀ item ∈ hist, ∀ mo, item.model_output = some mo →
        ∀ a ∈ mo.action, convertActionToStep a 0 none none = none) →
      extractStepsGo cp rl hist sid = [] := by
  intro hist
  induction hist with
  | nil => intro sid _; rfl
  | cons item rest ih =>
    intro sid h
    cases hmo : item.model_output with
    | none =>
      simp only [extractStepsGo, hmo]
      exact ih sid fun it hit mo hmo' a ha => h it (by simp [hit]) mo hmo' a ha
    | some mo =>
      have hconv : convertActions cp rl mo.action sid = [] :=
        convertActions_nil cp rl mo.action sid
          (fun a ha => h item (by simp) mo hmo a ha)
      simp only [extractStepsGo, hmo, hconv]
      simp only [List.nil_append, List.length_nil, Nat.add_zero]
      exact ih sid fun it hit mo' hmo' a ha => h it (by simp [hit]) mo' hmo' a ha

/-- C7: `Planner.create_plan` fails with an input-validation `ValueError`
when the mapper result is marked unsuccessful, or when its raw history is
absent (Python `None` or the falsy empty dict), producing no steps; by
contrast a successful result with a (possibly non-empty) history none of
whose recorded actions is convertible is *not* an error: it compiles to a
valid plan with zero steps whose `required_params` is empty (there being
no collected parameter names). -/
theorem create_plan_validation (m : MapperResult) (pn : Option String) :
    (m.success = false →
      createPlan m pn =
        .error ("Cannot create plan from failed mapping: " ++
          pyStr m.error_message)) ∧
    (m.success = true → m.raw_history = none →
      createPlan m pn = .error "Mapper result contains no history data") ∧
    (∀ hist, m.success = true → m.raw_history = some hist →
      m.metadata.parameter_names = [] →
      (∀ item ∈ hist, ∀ mo, item.model_output = some mo →
        ∀ a ∈ mo.action, convertActionToStep a 0 none none = none) →
      (createPlan m pn).map (fun p => p.steps) = .ok [] ∧
        (createPlan m pn).map (fun p => p.metadata.required_params) = .ok []) := by
  refine ⟨?_, ?_, ?_⟩
  · intro hs
    simp [createPlan, hs]
  · intro hs hr
    simp [createPlan, hs, hr]
  · intro hist hs hr hpn hconv
    have hsteps : extractSteps hist m.metadata.collected_parameters
        m.metadata.result_location = [] := by
      unfold extractSteps
      exact extractStepsGo_nil _ _ hist 0 hconv
    constructor
    · simp [createPlan, hs, hr, hsteps]
      rfl
    · simp [createPlan, hs, hr, hsteps, hpn, identifyParameters, pyDedup,
        sortStrings]
      rfl

def c7FailedMapper : MapperResult := { success := false, error_message := some "boom" }

def c7NoHistoryMapper : MapperResult := { success := true }

/-- A successful result whose one recorded action (`done`) is not
convertible. -/
def c7DoneMapper : MapperResult :=
  { objective := "o", success := true,
    raw_history := some [{ model_output := some { action := [[("done", {})]] } }] }

/-- C7 witness: the three branches at concrete inputs. -/
theorem create_plan_validation_witness :
    createPlan c7FailedMapper (some "n") =
      .error ("Cannot create plan from failed mapping: " ++
        pyStr c7FailedMapper.error_message) ∧
    createPlan c7NoHistoryMapper (some "n") =
      .error "Mapper result contains no history data" ∧
    (createPlan c7DoneMapper (some "n")).map (fun p => p.steps) = .ok [] ∧
    (createPlan c7DoneMapper (some "n")).map
      (fun p => p.metadata.required_params) = .ok [] :=
  ⟨(create_plan_validation c7FailedMapper (some "n")).1 rfl,
    (create_plan_validation c7NoHistoryMapper (some "n")).2.1 rfl rfl,
    ((create_plan_validation c7DoneMapper (some "n")).2.2 _ rfl rfl rfl
      (by decide)).1,
    ((create_plan_validation c7DoneMapper (some "n")).2.2 _ rfl rfl rfl
      (by decide)).2⟩

/-! # Claim C3: parameter injection -/

/-- C3 counterexample: injection is *not* per-occurrence simultaneous
substitution.  With step text `{param:a} {param:b}` and caller values
`a ↦ "{param:b}"`, `b ↦ "X"`, the code's sequential `str.replace` loop
produces `"X X"` — the text substituted for `a` is rewritten again by the
later replacement for `b` — while replacing each original occurrence with
the caller's value for its name (as the claim states) yields
`"{param:b} X"`. -/
theorem inject_params_not_per_occurrence_counterexample :
    injectParams [("text", .str "{param:a} {param:b}")]
        [("a", .str "{param:b}"), ("b", .str "X")] = [("text", .str "X X")] ∧
    specInjectParams [("text", .str "{param:a} {param:b}")]
        [("a", .str "{param:b}"), ("b", .str "X")] =
      [("text", .str "{param:b} X")] ∧
    injectParams [("text", .str "{param:a} {param:b}")]
        [("a", .str "{param:b}"), ("b", .str "X")] ≠
      specInjectParams [("text", .str "{param:a} {param:b}")]
        [("a", .str "{param:b}"), ("b", .str "X")] := by decide

theorem foldl_inject_id (userParams : PParams) :
    ∀ (names : List String) (acc : List Char),
      (∀ n ∈ names, pGet userParams n = none) →
      names.foldl (fun acc n =>
        match pGet userParams n with
        | some val => replaceAll (placeholderText n).data (pvalStr val).data acc
        | none => acc) acc = acc := by
  intro names
  induction names with
  | nil => intro acc _; rfl
  | cons n rest ih =>
    intro acc h
    have hn : pGet userParams n = none := h n (by simp)
    simp only [List.foldl_cons, hn]
    exact ih acc fun n' hn' => h n' (by simp [hn'])

/-- C3 amended: injection never raises — it is total, preserves the keys
and their order, and leaves every non-string value unchanged; a string
field without the `{param:` marker, and likewise a string field all of
whose placeholder names are absent from the caller map, is returned
verbatim (unresolved placeholders stay literal).  When names *are*
present, substitution is sequential over the names found in the original
text, each pass replacing all occurrences of that name's placeholder in
the evolving string — so a substituted value containing a later matched
name's placeholder is itself substituted (see the counterexample) rather
than each original occurrence independently receiving its caller value. -/
theorem inject_params_total_and_conservative (stepParams userParams : PParams) :
    ((injectParams stepParams userParams).map Prod.fst =
      stepParams.map Prod.fst) ∧
    (∀ kv ∈ stepParams, (∀ s, kv.2 ≠ PVal.str s) →
      kv ∈ injectParams stepParams userParams) ∧
    (∀ s : String, containsSub "\x7bparam:".data s.data = false →
      injectString userParams s = s) ∧
    (∀ s : String, (∀ n ∈ findPlaceholders s.data, pGet userParams n = none) →
      injectString userParams s = s) := by
  refine ⟨?_, ?_, ?_, ?_⟩
  · induction stepParams with
    | nil => rfl
    | cons kv rest ih =>
      obtain ⟨k, v⟩ := kv
      cases v <;> simp [injectParams, List.map_cons] <;>
        simpa [injectParams] using ih
  · intro kv hkv hns
    have heq : (match kv.2 with
        | PVal.str s => (kv.1, PVal.str (injectString userParams s))
        | _ => kv) = kv := by
      obtain ⟨k, v⟩ := kv
      cases v with
      | str s => exact absurd rfl (hns s)
      | int n => rfl
      | bool b => rfl
    have hmem : (match kv.2 with
        | PVal.str s => (kv.1, PVal.str (injectString userParams s))
        | _ => kv) ∈ injectParams stepParams userParams :=
      List.mem_map_of_mem _ hkv
    rw [heq] at hmem
    exact hmem
  · intro s h
    simp [injectString, h]
  · intro s h
    unfold injectString
    by_cases hc : containsSub "\x7bparam:".data s.data
    · rw [if_pos hc, foldl_inject_id userParams _ _ h]
    · rw [if_neg hc]

/-- C3 witness: a field whose placeholder name is absent from the caller
map is returned verbatim (the literal placeholder text survives), and a
placeholder-free field is untouched. -/
theorem inject_params_total_and_conservative_witness :
    injectString [("x", PVal.str "1")] "no placeholders here" =
      "no placeholders here" ∧
    injectString [("x", PVal.str "1")] "{param:y} stays" = "{param:y} stays" :=
  ⟨(inject_params_total_and_conservative [] [("x", PVal.str "1")]).2.2.1 _
      (by decide),
    (inject_params_total_and_conservative [] [("x", PVal.str "1")]).2.2.2 _
      (by decide)⟩

/-! # Claim C1: what `required_params` actually contains -/

/-- A successful mapping whose single recorded action is an Input of a
CEP-shaped text with an empty xpath and no collected parameters. -/
def c1Mapper : MapperResult :=
  { objective := "obj", success := true,
    raw_history := some [{ model_output := some { action :=
      [[("input", { index := some 3, text := some "12345-678",
                    xpath := some "" })]] } }] }

/-- C1 counterexample: the compiled plan's `required_params` is
`["user_input"]` — the xpath-derived name of the heuristically flagged
Input step — although no step text contains any `{param:NAME}`
placeholder, so `required_params` is *not* the set of placeholder names
referenced across the steps. -/
theorem required_params_not_placeholder_set_counterexample :
    (createPlan c1Mapper (some "n")).map
      (fun p => p.metadata.required_params) = .ok ["user_input"] ∧
    (createPlan c1Mapper (some "n")).map planPlaceholderNames = .ok [] ∧
    (["user_input"] : List String) ≠ ([] : List String) := by decide

/-- C1 amended: for every successful compilation, `required_params` is a
duplicate-free list whose members are exactly the union of (a) the
xpath-derived parameter names of Input steps flagged `is_parameterized`
(`Planner._identify_parameters`) and (b) the collected parameter names
passed in the mapper metadata; its order is unspecified (Python
`list(set(...))`), and these names are not in general the `{param:NAME}`
placeholder names occurring in step texts. -/
theorem required_params_characterization (m : MapperResult) (pn : Option String)
    (plan : Plan) (h : createPlan m pn = .ok plan) :
    plan.metadata.required_params.Nodup ∧
    ∀ s, s ∈ plan.metadata.required_params ↔
      (s ∈ identifyParameters plan.steps ∨ s ∈ m.metadata.parameter_names) := by
  unfold createPlan at h
  by_cases hs : m.success = false
  · rw [if_pos hs] at h
    cases h
  · rw [if_neg hs] at h
    cases hr : m.raw_history with
    | none => rw [hr] at h; cases h
    | some hist =>
      rw [hr] at h
      injection h with h'
      subst h'
      constructor
      · exact pyDedup_nodup _
      · intro s
        simp only [pyDedup_mem, List.mem_append]

def c1WitnessMapper : MapperResult :=
  { objective := "o", success := true, raw_history := some [],
    metadata := { parameter_names := ["a"] } }

def c1WitnessPlan : Plan :=
  { metadata := { name := "n", description := "o", required_params := ["a"] },
    steps := [] }

/-- C1 witness: the characterization applied to a concrete compilation. -/
theorem required_params_characterization_witness :
    c1WitnessPlan.metadata.required_params.Nodup ∧
    ("a" ∈ c1WitnessPlan.metadata.required_params ↔
      ("a" ∈ identifyParameters c1WitnessPlan.steps ∨
        "a" ∈ c1WitnessMapper.metadata.parameter_names)) :=
  ⟨(required_params_characterization c1WitnessMapper (some "n") c1WitnessPlan
      (by decide)).1,
    (required_params_characterization c1WitnessMapper (some "n") c1WitnessPlan
      (by decide)).2 "a"⟩

/-! # Claim C2: Input steps flagged `is_parameterized` -/

/-- A successful mapping whose single recorded action is an Input of an
email-shaped text, with no collected parameters. -/
def c2Mapper : MapperResult :=
  { objective := "obj", success := true,
    raw_history := some [{ model_output := some { action :=
      [[("input", { index := some 2, text := some "john@x.com",
                    xpath := some "//input[@name='email']" })]] } }] }

/-- C2 counterexample: the heuristically flagged Input step carries
`is_parameterized = true` but its text is the literal `john@x.com`, which
contains no `{param:NAME}` placeholder at all. -/
theorem parameterized_without_placeholder_counterexample :
    (createPlan c2Mapper (some "n")).map (fun p => p.steps.map fun st =>
      (st.action, pGet st.params "is_parameterized", pGet st.params "text")) =
      .ok [(.input, some (.bool true), some (.str "john@x.com"))] ∧
    findPlaceholders "john@x.com".data = [] := by decide

theorem convertActions_mem (cp : Option CollectedParams) (rl : Option RLoc) :
    ∀ (acts : List Action) (sid : Nat) (st : PlanStep),
      st ∈ convertActions cp rl acts sid →
      ∃ a ∈ acts, ∃ sid', convertActionToStep a sid' cp rl = some st := by
  intro acts
  induction acts with
  | nil => intro sid st h; simp [convertActions] at h
  | cons a rest ih =>
    intro sid st h
    cases hc : convertActionToStep a sid cp rl with
    | some st0 =>
      simp only [convertActions, hc, List.mem_cons] at h
      rcases h with rfl | hmem
      · exact ⟨a, by simp, sid, hc⟩
      · obtain ⟨a', ha', sid', hc'⟩ := ih (sid + 1) st hmem
        exact ⟨a', by simp [ha'], sid', hc'⟩
    | none =>
      simp only [convertActions, hc] at h
      obtain ⟨a', ha', sid', hc'⟩ := ih sid st h
      exact ⟨a', by simp [ha'], sid', hc'⟩

theorem extractStepsGo_mem (cp : Option CollectedParams) (rl : Option RLoc) :
    ∀ (hist : List HistoryItem) (sid : Nat) (st : PlanStep),
      st ∈ extractStepsGo cp rl hist sid →
      ∃ a sid', convertActionToStep a sid' cp rl = some st := by
  intro hist
  induction hist with
  | nil => intro sid st h; simp [extractStepsGo] at h
  | cons item rest ih =>
    intro sid st h
    cases hmo : item.model_output with
    | none =>
      simp only [extractStepsGo, hmo] at h
      exact ih _ _ h
    | some mo =>
      simp only [extractStepsGo, hmo, List.mem_append] at h
      rcases h with h | h
      · obtain ⟨a, _, sid', hc⟩ := convertActions_mem cp rl mo.action sid st h
        exact ⟨a, sid', hc⟩
      · exact ih _ _ h

theorem actionMapping_input {nm : String} (h : actionMapping nm = some .input) :
    nm = "input" := by
  unfold actionMapping at h
  split_ifs at h <;> simp_all

/-- Every compiled Input step records its original parameters and carries
exactly the parameter dict `_convert_params` builds for them. -/
theorem convertActionToStep_input {a : Action} {sid : Nat}
    {cp : Option CollectedParams} {rl : Option RLoc} {st : PlanStep}
    (h : convertActionToStep a sid cp rl = some st) :
    ∃ ps, st.original_params = some ps ∧
      st.params = convertParams st.action ps cp rl := by
  cases a with
  | nil => simp [convertActionToStep] at h
  | cons hd tl =>
    obtain ⟨nm, ps0⟩ := hd
    simp only [convertActionToStep] at h
    by_cases h1 : nm = "mark_result_location"
    · simp [h1] at h
    · simp only [h1, if_false] at h
      cases h2 : actionMapping nm with
      | none => rw [h2] at h; cases h
      | some ty =>
        rw [h2] at h
        injection h with h'
        subst h'
        exact ⟨(List.lookup nm ((nm, ps0) :: tl)).getD {}, rfl, rfl⟩

/-- C2 amended: in every compiled plan, an Input step whose params carry
`is_parameterized = true` either (a) was parameterized by an exact
collected-value match with a truthy (non-empty) parameter name — its text
is exactly the `{param:NAME}` placeholder for that NAME, and NAME is in
the plan's `required_params` whenever it is among the mapper metadata's
collected `parameter_names` — or (b) entered the heuristic branch (no
collected parameter with a truthy name has a matching value) and was
flagged by the PII heuristic, keeping the original text unchanged: no
placeholder is introduced by compilation. -/
theorem input_step_parameterization (m : MapperResult) (pn : Option String)
    (plan : Plan) (st : PlanStep) (h : createPlan m pn = .ok plan)
    (hst : st ∈ plan.steps) (hact : st.action = .input)
    (hflag : pTruthy (pGet st.params "is_parameterized") = true) :
    ∃ ps, st.original_params = some ps ∧
      ((∃ nm, findParameterByValue (ps.text.getD "")
            m.metadata.collected_parameters = some nm ∧ nm ≠ "" ∧
          pGet st.params "text" = some (.str (placeholderText nm)) ∧
          (nm ∈ m.metadata.parameter_names →
            nm ∈ plan.metadata.required_params)) ∨
        (optTruthy (findParameterByValue (ps.text.getD "")
            m.metadata.collected_parameters) = false ∧
          pGet st.params "text" = some (.str (ps.text.getD "")) ∧
          shouldParameterize (ps.text.getD "") = true)) := by
  unfold createPlan at h
  by_cases hs : m.success = false
  · rw [if_pos hs] at h; cases h
  · rw [if_neg hs] at h
    cases hr : m.raw_history with
    | none => rw [hr] at h; cases h
    | some hist =>
      rw [hr] at h
      injection h with h'
      subst h'
      obtain ⟨a, sid', hconv⟩ :=
        extractStepsGo_mem m.metadata.collected_parameters _ hist 0 st hst
      obtain ⟨ps, hops, hparams⟩ := convertActionToStep_input hconv
      refine ⟨ps, hops, ?_⟩
      rw [hact] at hparams
      cases htr : optTruthy (findParameterByValue (ps.text.getD "")
          m.metadata.collected_parameters) with
      | true =>
        cases hfind : findParameterByValue (ps.text.getD "")
            m.metadata.collected_parameters with
        | none => rw [hfind] at htr; simp [optTruthy] at htr
        | some nm =>
          have hne : nm ≠ "" := by
            rw [hfind] at htr
            simpa [optTruthy] using htr
          refine .inl ⟨nm, rfl, hne, ?_, ?_⟩
          · rw [hparams]
            simp [convertParams, htr, hfind, optTruthy, hne, pGet, List.lookup]
          · intro hnm
            exact pyDedup_mem.mpr (List.mem_append.mpr (.inr hnm))
      | false =>
        refine .inr ⟨rfl, ?_, ?_⟩
        · rw [hparams]
          simp [convertParams, htr, pGet, List.lookup]
        · rw [hparams] at hflag
          simp [convertParams, htr, pGet, List.lookup, pTruthy] at hflag
          exact hflag

/-- The spec's own scenario: an Input whose text matches the collected
parameter `inscricao`. -/
def c2WitnessMapper : MapperResult :=
  { objective := "o", success := true,
    raw_history := some [{ model_output := some { action :=
      [[("input", { index := some 3, text := some "0.000.001-8",
                    xpath := some ".../*[@id='insc']" })]] } }],
    metadata := {
      collected_parameters := some { parameters :=
        [{ name := "inscricao", value := "0.000.001-8" }] },
      parameter_names := ["inscricao"] } }

def c2WitnessStep : PlanStep :=
  { sequence_id := 0, action := .input,
    params := [("index", .int 3), ("xpath", .str ".../*[@id='insc']"),
      ("text", .str "{param:inscricao}"), ("is_parameterized", .bool true)],
    description := "Input text into .../*[@id='insc']: '{param:inscricao}...'",
    original_action := some "input",
    original_params := some { index := some 3,
                              text := some "0.000.001-8",
                              xpath := some ".../*[@id='insc']" } }

def c2WitnessPlan : Plan :=
  { metadata := { name := "n", description := "o",
                  required_params := ["insc", "inscricao"] },
    steps := [c2WitnessStep] }

/-- C2 witness: the amended claim at the spec's scenario (note the
compiled `required_params` also contains the xpath-derived name `insc`
alongside the collected `inscricao`). -/
theorem input_step_parameterization_witness :
    ∃ ps, c2WitnessStep.original_params = some ps ∧
      ((∃ nm, findParameterByValue (ps.text.getD "")
            c2WitnessMapper.metadata.collected_parameters = some nm ∧ nm ≠ "" ∧
          pGet c2WitnessStep.params "text" = some (.str (placeholderText nm)) ∧
          (nm ∈ c2WitnessMapper.metadata.parameter_names →
            nm ∈ c2WitnessPlan.metadata.required_params)) ∨
        (optTruthy (findParameterByValue (ps.text.getD "")
            c2WitnessMapper.metadata.collected_parameters) = false ∧
          pGet c2WitnessStep.params "text" = some (.str (ps.text.getD "")) ∧
          shouldParameterize (ps.text.getD "") = true)) :=
  input_step_parameterization c2WitnessMapper (some "n") c2WitnessPlan
    c2WitnessStep (by decide) (by decide) (by decide) (by decide)

/-! # Claim C6: result locations whose index is in no snapshot -/

def c6Hist : List HistoryItem :=
  [{ model_output := some { action :=
      [[("extract", { query := some "foo", index := some 23,
                      xpath := some "/html/div" })]] } }]

def c6Rl : RLoc := { index := some 23, description := some "valor do IPTU" }

def c6Mapper : MapperResult :=
  { objective := "obj", success := true, raw_history := some c6Hist,
    metadata := { result_location := some c6Rl } }

/-- C6 counterexample: the trace has *no* element-map snapshot at all
(so index 23 appears in none), yet the enriched result location gains an
xpath — copied from a recorded action that referenced index 23 — and the
compiled Extract step's query is the recorded extract action's own query
`"foo"`, not the result location's description `"valor do IPTU"`. -/
theorem result_location_no_snapshot_counterexample :
    (∀ item ∈ c6Hist, item.state = none) ∧
    enrichResultLocation c6Hist c6Rl =
      { index := some 23, description := some "valor do IPTU",
        xpath := some "/html/div" } ∧
    (createPlan c6Mapper (some "n")).map (fun p => p.steps.map fun st =>
      (st.action, pGet st.params "query", pGet st.params "is_final_result")) =
      .ok [(.extract, some (.str "foo"), some (.bool true))] ∧
    ("foo" : String) ≠ "valor do IPTU" := by decide

theorem foldl_actionXpathScan_id (target : Int) :
    ∀ (acts : List Action) (acc : RLoc),
      (∀ a ∈ acts, ∀ acc', actionXpathScan target acc' a = acc') →
      acts.foldl (actionXpathScan target) acc = acc := by
  intro acts
  induction acts with
  | nil => intro acc _; rfl
  | cons a rest ih =>
    intro acc h
    simp only [List.foldl_cons, h a (by simp) acc]
    exact ih acc fun a' ha' acc' => h a' (by simp [ha']) acc'

theorem scanItemActions_id (target : Int) (item : HistoryItem) (acc : RLoc)
    (h : ∀ mo, item.model_output = some mo →
      ∀ a ∈ mo.action, ∀ acc', actionXpathScan target acc' a = acc') :
    scanItemActions target acc item = acc := by
  unfold scanItemActions
  cases hmo : item.model_output with
  | none => rfl
  | some mo => exact foldl_actionXpathScan_id target mo.action acc (h mo hmo)

/-- C6 amended: when the result location's ordinal index appears in no
per-step element-map snapshot *and* no recorded action referencing that
index carries a (truthy) xpath, enrichment leaves the marker exactly as it
was (index and description only); and the compiled Extract step for a
marked result location whose recorded extract action has no (truthy) query
of its own has query equal to the location's description,
`is_final_result = true`, and no xpath among its parameters. -/
theorem result_location_enrichment_and_extract_params :
    (∀ (hist : List HistoryItem) (r : RLoc) (target : Int),
      r.index = some target →
      (∀ item ∈ hist, ∀ stt, item.state = some stt →
        List.lookup target stt.selector_map = none) →
      (∀ item ∈ hist, ∀ mo, item.model_output = some mo →
        ∀ a ∈ mo.action, ∀ acc, actionXpathScan target acc a = acc) →
      enrichResultLocation hist r = r) ∧
    (∀ (ps : AParams) (cp : Option CollectedParams) (r' : RLoc),
      optTruthy ps.query = false →
      convertParams .extract ps cp (some r') =
        [("query", .str (r'.description.getD "")),
         ("is_final_result", .bool true)] ∧
      pGet (convertParams .extract ps cp (some r')) "xpath" = none) := by
  constructor
  · intro hist r target hidx hsnap hact
    unfold enrichResultLocation
    rw [hidx]
    induction hist with
    | nil => rfl
    | cons item rest ih =>
      have hscan : scanItemActions target r item = r :=
        scanItemActions_id target item r
          (fun mo hmo a ha acc => hact item (by simp) mo hmo a ha acc)
      have htail : enrichGo target rest r = r :=
        ih (fun it hit stt hst => hsnap it (by simp [hit]) stt hst)
          (fun it hit mo hmo a ha acc => hact it (by simp [hit]) mo hmo a ha acc)
      cases hst : item.state with
      | none =>
        simp only [enrichGo, hst, hscan]
        exact htail
      | some stt =>
        have hlook : List.lookup target stt.selector_map = none :=
          hsnap item (by simp) stt hst
        simp only [enrichGo, hst, hlook, hscan]
        exact htail
  · intro ps cp r' hq
    have heq : convertParams .extract ps cp (some r') =
        [("query", .str (r'.description.getD "")),
         ("is_final_result", .bool true)] := by
      simp [convertParams, hq]
    exact ⟨heq, by rw [heq]; rfl⟩

def c6WitnessHist : List HistoryItem :=
  [{ state := some { selector_map := [(7, { xpath := some "/p" })] },
     model_output := some { action := [[("click", { index := some 7 })]] } }]

def c6WitnessRl : RLoc := { index := some 23, description := some "valor" }

/-- C6 witness: a trace whose only snapshot and only action reference a
*different* index leaves the marker index-and-description only, and the
Extract conversion at a concrete query-less recorded action. -/
theorem result_location_enrichment_and_extract_params_witness :
    enrichResultLocation c6WitnessHist c6WitnessRl = c6WitnessRl ∧
    convertParams .extract {} none (some c6WitnessRl) =
      [("query", .str "valor"), ("is_final_result", .bool true)] ∧
    pGet (convertParams .extract {} none (some c6WitnessRl)) "xpath" = none :=
  ⟨result_location_enrichment_and_extract_params.1 c6WitnessHist c6WitnessRl 23
      (by decide) (by decide)
      (by
        intro item hit mo hmo a ha acc
        simp only [c6WitnessHist, List.mem_cons, List.not_mem_nil, or_false]
          at hit
        subst hit
        simp only [Option.some.injEq] at hmo
        subst hmo
        simp only [List.mem_cons, List.not_mem_nil, or_false] at ha
        subst ha
        simp [actionXpathScan, List.lookup]),
    (result_location_enrichment_and_extract_params.2 {} none c6WitnessRl
      (by decide)).1,
    (result_location_enrichment_and_extract_params.2 {} none c6WitnessRl
      (by decide)).2⟩

/-! # Claim C4: one-shot retry semantics of the step loop -/

/-- The step at position `p.1` succeeds on its first dispatch, or fails
once and succeeds on the immediate retry. -/
def stepEventuallyOk (d : Dispatch) (user : PParams) (p : Nat × PlanStep) :
    Prop :=
  (d p.1 0 (injectParams p.2.params user)).isOk = true ∨
  ((d p.1 0 (injectParams p.2.params user)).isOk = false ∧
    (d p.1 1 (injectParams p.2.params user)).isOk = true)

/-- The artifacts a step contributes: those of its first successful
attempt (a failed first attempt contributes nothing). -/
def stepArtifacts (d : Dispatch) (user : PParams) (p : Nat × PlanStep) :
    List Artifact :=
  match d p.1 0 (injectParams p.2.params user) with
  | .ok a => a
  | .error _ =>
    match d p.1 1 (injectParams p.2.params user) with
    | .ok a => a
    | .error _ => []

/-- The dispatch/pause events a step contributes when retries are
enabled: one dispatch when the first attempt succeeds; the first
dispatch, the fixed pause, and the single retry dispatch otherwise. -/
def stepEvents (d : Dispatch) (user : PParams) (p : Nat × PlanStep) :
    List ExecEvent :=
  match d p.1 0 (injectParams p.2.params user) with
  | .ok _ => [.dispatchStep p.1 0]
  | .error _ => [.dispatchStep p.1 0, .retryPause, .dispatchStep p.1 1]

instance (d : Dispatch) (user : PParams) (p : Nat × PlanStep) :
    Decidable (stepEventuallyOk d user p) := by
  unfold stepEventuallyOk
  infer_instance

theorem executeStepsGo_all_ok (d : Dispatch) (cfg : ExecutorConfig)
    (planId : String) (user : PParams) (total : Nat)
    (hretry : cfg.retry_on_error = true) :
    ∀ (l : List (Nat × PlanStep)) (arts : List Artifact) (completed : Nat)
      (log : List ExecEvent),
      (∀ p ∈ l, stepEventuallyOk d user p) →
      executeStepsGo d cfg planId user total l arts completed log =
        ({ plan_id := planId, status := .success,
           artifacts := arts ++ (l.map (stepArtifacts d user)).flatten,
           steps_completed := completed + l.length, total_steps := total },
         log ++ (l.map (stepEvents d user)).flatten) := by
  intro l
  induction l with
  | nil =>
    intro arts completed log _
    simp [executeStepsGo]
  | cons p rest ih =>
    intro arts completed log h
    obtain ⟨pos, step⟩ := p
    have hp := h _ (List.mem_cons_self _ _)
    have hrest : ∀ q ∈ rest, stepEventuallyOk d user q :=
      fun q hq => h q (by simp [hq])
    cases hd0 : d pos 0 (injectParams step.params user) with
    | ok a =>
      simp only [executeStepsGo, hd0]
      rw [ih (arts ++ a) (completed + 1)
        (log ++ [ExecEvent.dispatchStep pos 0]) hrest]
      simp [stepArtifacts, stepEvents, hd0, List.append_assoc]
      all_goals omega
    | error e =>
      rcases hp with hok | ⟨_, hok1⟩
      · rw [hd0] at hok; cases hok
      · cases hd1 : d pos 1 (injectParams step.params user) with
        | error e2 => rw [hd1] at hok1; cases hok1
        | ok a =>
          simp only [executeStepsGo, hd0, hretry, if_true, hd1]
          rw [ih (arts ++ a) (completed + 1)
            (log ++ [ExecEvent.dispatchStep pos 0, ExecEvent.retryPause,
              ExecEvent.dispatchStep pos 1]) hrest]
          simp [stepArtifacts, stepEvents, hd0, hd1, List.append_assoc]
          all_goals omega

theorem executeStepsGo_first_fail (d : Dispatch) (cfg : ExecutorConfig)
    (planId : String) (user : PParams) (total : Nat)
    (hretry : cfg.retry_on_error = true) :
    ∀ (good : List (Nat × PlanStep)) (bad : Nat × PlanStep)
      (rest : List (Nat × PlanStep)) (arts : List Artifact) (completed : Nat)
      (log : List ExecEvent) (e : String),
      (∀ p ∈ good, stepEventuallyOk d user p) →
      d bad.1 0 (injectParams bad.2.params user) = .error e →
      (d bad.1 1 (injectParams bad.2.params user)).isOk = false →
      executeStepsGo d cfg planId user total (good ++ bad :: rest) arts
          completed log =
        ({ plan_id := planId, status := .failure,
           artifacts := arts ++ (good.map (stepArtifacts d user)).flatten,
           steps_completed := completed + good.length, total_steps := total,
           error_message := some ("Step " ++ toString bad.2.sequence_id ++
             " failed: " ++ e) },
         log ++ (good.map (stepEvents d user)).flatten ++
           [.dispatchStep bad.1 0, .retryPause, .dispatchStep bad.1 1]) := by
  intro good
  induction good with
  | nil =>
    intro bad rest arts completed log e _ hbad0 hbad1
    obtain ⟨pos, step⟩ := bad
    simp only [List.nil_append]
    cases hd1 : d pos 1 (injectParams step.params user) with
    | ok a =>
      rw [hd1] at hbad1
      cases hbad1
    | error e2 =>
      simp only [executeStepsGo, hbad0, hretry, if_true, hd1]
      simp
  | cons p good' ih =>
    intro bad rest arts completed log e h hbad0 hbad1
    obtain ⟨pos, step⟩ := p
    have hp := h _ (List.mem_cons_self _ _)
    have hgood' : ∀ q ∈ good', stepEventuallyOk d user q :=
      fun q hq => h q (by simp [hq])
    cases hd0 : d pos 0 (injectParams step.params user) with
    | ok a =>
      simp only [List.cons_append, executeStepsGo, hd0, List.append_eq]
      rw [ih bad rest (arts ++ a) (completed + 1)
        (log ++ [ExecEvent.dispatchStep pos 0]) e hgood' hbad0 hbad1]
      simp [stepArtifacts, stepEvents, hd0, List.append_assoc]
      all_goals omega
    | error e0 =>
      rcases hp with hok | ⟨_, hok1⟩
      · rw [hd0] at hok; cases hok
      · cases hd1 : d pos 1 (injectParams step.params user) with
        | error e2 => rw [hd1] at hok1; cases hok1
        | ok a =>
          simp only [List.cons_append, executeStepsGo, hd0, hretry, if_true,
            hd1, List.append_eq]
          rw [ih bad rest (arts ++ a) (completed + 1)
            (log ++ [ExecEvent.dispatchStep pos 0, ExecEvent.retryPause,
              ExecEvent.dispatchStep pos 1]) e hgood' hbad0 hbad1]
          simp [stepArtifacts, stepEvents, hd0, hd1, List.append_assoc]
          all_goals omega

/-- C4: with `retry_on_error` enabled (its source default), a step whose
dispatch raises is retried exactly once — parameters re-injected, the
dispatch (which re-resolves the element from scratch) re-invoked with
attempt 1 after the fixed pause, as the event log shows.  If every step
succeeds at once or on its single retry, the run is a Success counting
every step.  If some step's retry also raises, the run stops with a
Failure carrying all artifacts accumulated so far, `steps_completed`
equal to the number of previously successful steps, and an error message
naming the failing step's `sequence_id` and the underlying (first)
cause. -/
theorem step_failure_retry_semantics (d : Dispatch) (cfg : ExecutorConfig)
    (planId : String) (steps : List PlanStep) (user : PParams)
    (hretry : cfg.retry_on_error = true) :
    ((∀ p ∈ steps.enum, stepEventuallyOk d user p) →
      executeSteps d cfg planId steps user =
        ({ plan_id := planId, status := .success,
           artifacts := (steps.enum.map (stepArtifacts d user)).flatten,
           steps_completed := steps.length, total_steps := steps.length },
         (steps.enum.map (stepEvents d user)).flatten)) ∧
    (∀ good bad rest e, steps.enum = good ++ bad :: rest →
      (∀ p ∈ good, stepEventuallyOk d user p) →
      d bad.1 0 (injectParams bad.2.params user) = .error e →
      (d bad.1 1 (injectParams bad.2.params user)).isOk = false →
      executeSteps d cfg planId steps user =
        ({ plan_id := planId, status := .failure,
           artifacts := (good.map (stepArtifacts d user)).flatten,
           steps_completed := good.length, total_steps := steps.length,
           error_message := some ("Step " ++ toString bad.2.sequence_id ++
             " failed: " ++ e) },
         (good.map (stepEvents d user)).flatten ++
           [.dispatchStep bad.1 0, .retryPause, .dispatchStep bad.1 1])) := by
  constructor
  · intro h
    unfold executeSteps
    rw [executeStepsGo_all_ok d cfg planId user steps.length hretry
      steps.enum [] 0 [] h]
    simp [List.enum_length]
  · intro good bad rest e hsplit h hbad0 hbad1
    unfold executeSteps
    rw [hsplit]
    rw [executeStepsGo_first_fail d cfg planId user steps.length hretry
      good bad rest [] 0 [] e h hbad0 hbad1]
    simp

def c4Steps : List PlanStep :=
  [{ sequence_id := 0, action := .goto }, { sequence_id := 7, action := .goto }]

/-- An oracle whose step 0 fails once then succeeds on retry. -/
def c4FlakyDispatch : Dispatch := fun pos a _ =>
  if pos = 0 ∧ a = 0 then .error "flaky" else .ok []

/-- An oracle whose step 1 fails on both attempts. -/
def c4BrokenDispatch : Dispatch := fun pos _ _ =>
  if pos = 0 then .ok [] else .error "boom"

/-- C4 witness: a step that fails once then succeeds on the immediate
retry (after the pause) is counted and the run is a Success; a step that
fails twice stops the run with Failure, `steps_completed = 1` (the prior
successful step), and the error message naming sequence id 7 and the
first cause. -/
theorem step_failure_retry_semantics_witness :
    executeSteps c4FlakyDispatch {} "p" c4Steps [] =
      ({ plan_id := "p", status := .success, artifacts := [],
         steps_completed := 2, total_steps := 2 },
       [.dispatchStep 0 0, .retryPause, .dispatchStep 0 1,
        .dispatchStep 1 0]) ∧
    executeSteps c4BrokenDispatch {} "p" c4Steps [] =
      ({ plan_id := "p", status := .failure, artifacts := [],
         steps_completed := 1, total_steps := 2,
         error_message := some "Step 7 failed: boom" },
       [.dispatchStep 0 0, .dispatchStep 1 0, .retryPause,
        .dispatchStep 1 1]) := by
  constructor
  · have h := (step_failure_retry_semantics c4FlakyDispatch {} "p" c4Steps []
      rfl).1 (by decide)
    rw [h]
    decide
  · have h := (step_failure_retry_semantics c4BrokenDispatch {} "p" c4Steps []
      rfl).2 [(0, { sequence_id := 0, action := .goto })]
      (1, { sequence_id := 7, action := .goto }) [] "boom" (by decide)
      (by decide) (by decide) (by decide)
    rw [h]
    decide

end Seventech
